import Mathlib

/-!
Shallow embedding of the core of the Reddit-Sentiment-Analysis repository:
the comment record store (`storage/comment_db.py`), the rate-limited call
gateway (`utils/rate_limiting.py`), the sentiment workflow
(`workflows/sentiment_workflow.py`) and the monitor glue (`monitoring.py`).
Python strings are Lean `String`, SQL `REAL` values are `ℚ`, nullable values
are `Option`, raised exceptions are `Except String`.
-/

namespace RSA

/-- Model of the Python test `s.startswith("t1_")`. -/
def startsWithT1 (s : String) : Bool :=
  "t1_".data.isPrefixOf s.data

/-- Model of the Python slice `s[3:]`, used to strip the `t1_` type tag. -/
def stripT1 (s : String) : String :=
  ⟨s.data.drop 3⟩

/-- Model of a SQL `LIKE %pat%` substring test (patterns produced by the code
contain no further wildcard characters). -/
def strContains (s pat : String) : Bool :=
  decide (List.IsInfix pat.data s.data)

/-- One row of the `comments` table, with exactly the columns created by
`CommentDatabase._init_db`. -/
structure CommentRow where
  id : String
  comment_id : Option String
  subreddit : String
  author : String
  body : String
  created_utc : ℚ
  permalink : String
  key_term : String
  sentiment : String
  confidence : ℚ
  ai_response : Option String
  status : String
  email_sent : Int
  email_recipient : Option String
  timestamp : ℚ
deriving DecidableEq

/-- The `comments` table in insertion (rowid) order. -/
abbrev CommentTable := List CommentRow

/-- SQL equality match of the `comment_id` column against a non-null value. -/
def cidMatch (x : String) (r : CommentRow) : Bool :=
  r.comment_id = some x

/-- Column names of the `comments` table as created by
`CommentDatabase._init_db`. -/
def commentsTableColumns : List String :=
  ["id", "comment_id", "subreddit", "author", "body", "created_utc",
   "permalink", "key_term", "sentiment", "confidence", "ai_response",
   "status", "email_sent", "email_recipient", "timestamp"]

/-- SQLite rejects a statement naming a column absent from the schema with
an `OperationalError` before touching any row. -/
def firstMissingColumn (setCols : List String) : Option String :=
  setCols.find? (fun c => ¬ commentsTableColumns.contains c)

/-- Model of `cursor.execute("UPDATE comments SET ... WHERE <matches>")`:
raises when a named column is missing from the schema, otherwise applies
`apply` to every matching row and reports by `rowcount > 0` whether any row
was affected. -/
def sqlUpdate (db : CommentTable) (setCols : List String)
    (apply : CommentRow → CommentRow) (rowMatch : CommentRow → Bool) :
    Except String (CommentTable × Bool) :=
  match firstMissingColumn setCols with
  | some c => .error ("no such column: " ++ c)
  | none => .ok (db.map (fun r => if rowMatch r then apply r else r), db.any rowMatch)

/-- Input item dictionary as consumed by `CommentDatabase.add_comment`
(`comment_data.get("id")` may be absent, hence `Option`). -/
structure CommentData where
  id : Option String
  subreddit : String
  author : String
  body : String
  created_utc : ℚ
  permalink : String
deriving DecidableEq

/-- Row produced by the `INSERT` branch of `CommentDatabase.add_comment`. -/
def insertedRow (cd : CommentData) (key_term sentiment : String)
    (confidence : ℚ) (ai_response : Option String) (status : String)
    (email_sent : Bool) (email_recipient : Option String)
    (freshId : String) (now : ℚ) : CommentRow :=
  { id := freshId
    comment_id := cd.id
    subreddit := cd.subreddit
    author := cd.author
    body := cd.body
    created_utc := cd.created_utc
    permalink := cd.permalink
    key_term := key_term
    sentiment := sentiment
    confidence := confidence
    ai_response := ai_response
    status := status
    email_sent := if email_sent then 1 else 0
    email_recipient := email_recipient
    timestamp := now }

/-- Field update performed by the `UPDATE` branch of
`CommentDatabase.add_comment`; `id` and `comment_id` are not in the SET list
and are preserved. -/
def updatedRow (cd : CommentData) (key_term sentiment : String)
    (confidence : ℚ) (ai_response : Option String) (status : String)
    (email_sent : Bool) (email_recipient : Option String)
    (now : ℚ) (r : CommentRow) : CommentRow :=
  { r with
    subreddit := cd.subreddit
    author := cd.author
    body := cd.body
    created_utc := cd.created_utc
    permalink := cd.permalink
    key_term := key_term
    sentiment := sentiment
    confidence := confidence
    ai_response := ai_response
    status := status
    email_sent := if email_sent then 1 else 0
    email_recipient := email_recipient
    timestamp := now }

/-- Model of `CommentDatabase.add_comment`. The `INSERT` raises
`sqlite3.IntegrityError` when the fresh primary key or the non-null unique
`comment_id` collides; the handler then runs `UPDATE ... WHERE comment_id = ?`
followed by `SELECT id FROM comments WHERE comment_id = ?`, returning the
existing internal id when found, else the generated one. -/
def addComment (db : CommentTable) (cd : CommentData)
    (key_term sentiment : String) (confidence : ℚ)
    (ai_response : Option String) (status : String)
    (email_sent : Bool) (email_recipient : Option String)
    (freshId : String) (now : ℚ) : String × CommentTable :=
  let conflict := db.any (fun r => r.id = freshId) ||
    (match cd.id with
     | some c => db.any (cidMatch c)
     | none => false)
  if conflict then
    let db' := db.map (fun r =>
      match cd.id with
      | some c =>
          if cidMatch c r then
            updatedRow cd key_term sentiment confidence ai_response status
              email_sent email_recipient now r
          else r
      | none => r)
    let retId :=
      match cd.id with
      | some c =>
          match db'.find? (cidMatch c) with
          | some r => r.id
          | none => freshId
      | none => freshId
    (retId, db')
  else
    (freshId,
     db ++ [insertedRow cd key_term sentiment confidence ai_response status
        email_sent email_recipient freshId now])

/-- Model of `CommentDatabase.comment_exists`: empty ids are rejected, then
the exact id, the `t1_`-prefixed variant, the stripped variant and finally a
`LIKE %stripped%` substring probe are tried in turn. -/
def commentExists (db : CommentTable) (rid : String) : Bool :=
  if rid = "" then false
  else
    let prefixed := if startsWithT1 rid then rid else ⟨'t' :: '1' :: '_' :: rid.data⟩
    let stripped := if startsWithT1 rid then stripT1 rid else rid
    db.any (cidMatch rid) ||
    (if rid ≠ prefixed then db.any (cidMatch prefixed) else false) ||
    (if rid ≠ stripped then db.any (cidMatch stripped) else false) ||
    db.any (fun r =>
      match r.comment_id with
      | some s => if stripped = "" then true else strContains s stripped
      | none => false)

/-- Model of `CommentDatabase.update_comment_status`. -/
def updateCommentStatus (db : CommentTable) (commentId status : String) :
    Except String (CommentTable × Bool) :=
  sqlUpdate db ["status"] (fun r => { r with status := status })
    (fun r => r.id = commentId)

/-- Model of `CommentDatabase.mark_email_sent`. -/
def markEmailSent (db : CommentTable) (commentId emailRecipient : String) :
    Except String (CommentTable × Bool) :=
  sqlUpdate db ["email_sent", "email_recipient"]
    (fun r => { r with email_sent := 1, email_recipient := some emailRecipient })
    (fun r => r.id = commentId)

/-- Python truthiness of an optional string (`None` and `""` are falsy). -/
def truthyStr : Option String → Bool
  | some s => s ≠ ""
  | none => false

/-- Model of `CommentDatabase.update_comment_approval`. When approved it
resolves the response to store (operator text if truthy, else the stored
`ai_response`), then issues an `UPDATE` whose SET list names the columns
`human_approved` and, when a response is available, `final_response`; those
columns are not part of the schema created by `_init_db`. -/
def updateCommentApproval (db : CommentTable) (commentId : String)
    (approved : Bool) (final_response : Option String) :
    Except String (CommentTable × Bool) :=
  let status := if approved then "approved" else "rejected"
  if approved then
    let fromRow : Option String :=
      match db.find? (fun r => r.id = commentId) with
      | some r => if truthyStr r.ai_response then r.ai_response else none
      | none => none
    let responseToUse : Option String :=
      if truthyStr final_response then final_response else fromRow
    if truthyStr responseToUse then
      sqlUpdate db ["status", "human_approved", "final_response"]
        (fun r => { r with status := status }) (fun r => r.id = commentId)
    else
      sqlUpdate db ["status", "human_approved"]
        (fun r => { r with status := status }) (fun r => r.id = commentId)
  else
    sqlUpdate db ["status", "human_approved"]
      (fun r => { r with status := status }) (fun r => r.id = commentId)

/-- Observable trace of one run of a function wrapped by `with_retry`
(`utils/rate_limiting.py`): the final outcome, how many times the wrapped
call was invoked, the sleeps between consecutive attempts, and the
rate-limit classification logged at each retry. -/
structure RetryTrace (α : Type) where
  result : Except String α
  attempts : ℕ
  delays : List ℚ
  rateLimitFlags : List Bool

/-- Loop body of `with_retry`: `attemptIdx` is the value of `retries` before
the call, `remaining` is `max_retries - retries`. On failure with retries
left, the delay `base_delay * backoff_factor ^ (retries - 1)` (with `retries`
already incremented) is slept and the error is classified for the log line
only; with none left the last error is re-raised. -/
def withRetryGo (call : ℕ → Except String α) (baseDelay backoff : ℚ)
    (isRateLimit : String → Bool) (attemptIdx : ℕ) :
    ℕ → RetryTrace α
  | 0 =>
      match call attemptIdx with
      | .ok a => ⟨.ok a, 1, [], []⟩
      | .error e => ⟨.error e, 1, [], []⟩
  | remaining + 1 =>
      match call attemptIdx with
      | .ok a => ⟨.ok a, 1, [], []⟩
      | .error e =>
          let d := baseDelay * backoff ^ attemptIdx
          let t := withRetryGo call baseDelay backoff isRateLimit
            (attemptIdx + 1) remaining
          ⟨t.result, t.attempts + 1, d :: t.delays, isRateLimit e :: t.rateLimitFlags⟩

/-- Model of `with_retry(max_retries, base_delay, backoff_factor)` applied to
a wrapped call whose outcome on its `i`-th invocation is `call i`. -/
def withRetry (call : ℕ → Except String α) (maxRetries : ℕ)
    (baseDelay backoff : ℚ) (isRateLimit : String → Bool) : RetryTrace α :=
  withRetryGo call baseDelay backoff isRateLimit 0 maxRetries

/-- The module-level `_last_api_call_times` registry: last recorded
invocation time per throttle key. -/
abbrev ThrottleRegistry := String → Option ℚ

/-- Start time of a call entering `throttle(min_interval, key)` at wall time
`now`: the last recorded time for the key defaults to `0`; if less than
`min_interval` has elapsed the wrapper sleeps for the remainder, so the
wrapped call starts at `now + (min_interval - elapsed)`. -/
def throttleStart (reg : ThrottleRegistry) (key : String) (minInterval now : ℚ) : ℚ :=
  let last := (reg key).getD 0
  let elapsed := now - last
  if elapsed < minInterval then now + (minInterval - elapsed) else now

/-- One call through the `throttle` wrapper: computes the start time and
records it in the shared per-key registry before invoking the wrapped call. -/
def throttleCall (reg : ThrottleRegistry) (key : String) (minInterval now : ℚ) :
    ℚ × ThrottleRegistry :=
  let start := throttleStart reg key minInterval now
  (start, fun k => if k = key then some start else reg k)

/-- Sequential calls through `throttle` under one key: `arrivals` are the
wall times at which successive calls reach the wrapper; the result lists the
start times of the wrapped calls. -/
def throttleRun (key : String) (minInterval : ℚ) :
    ThrottleRegistry → List ℚ → List ℚ
  | _, [] => []
  | reg, now :: rest =>
      let p := throttleCall reg key minInterval now
      p.1 :: throttleRun key minInterval p.2 rest

/-- Sentiment dictionary produced by the classifier chain in
`analyze_sentiment` (`workflows/sentiment_workflow.py`). -/
structure SentimentDict where
  sentiment : String
  confidence : ℚ
  explanation : String
deriving DecidableEq

/-- The `CommentState` pydantic model of `workflows/sentiment_workflow.py`. -/
structure CommentState where
  comment_id : String
  comment_text : String
  subreddit : String
  author : String
  permalink : String
  sentiment_result : Option SentimentDict
  response_draft : Option String
  human_approved : Option Bool
  final_response : Option String
  created_at : ℚ
  analyzed_at : Option ℚ
deriving DecidableEq

/-- Python slice `str(e)[:100]` used when formatting degraded explanations. -/
def truncate100 (e : String) : String :=
  ⟨e.data.take 100⟩

/-- Model of the `analyze_sentiment` node. The classifier chain outcome is
the parameter `outcome`; an exception from the chain is caught locally and
replaced by the degraded result with sentiment `neutral` and confidence
`0.5`. The node always returns a state. -/
def analyzeSentiment (outcome : Except String SentimentDict)
    (st : CommentState) (now : ℚ) : CommentState :=
  match outcome with
  | .ok r => { st with sentiment_result := some r, analyzed_at := some now }
  | .error e =>
      { st with
        sentiment_result := some
          { sentiment := "neutral"
            confidence := 1 / 2
            explanation := "Failed to analyze due to API error: " ++ truncate100 e ++ "..." }
        analyzed_at := some now }

/-- Fallback reply used by `generate_response` when the drafter raises. -/
def fallbackReply : String :=
  "I noticed your concerns and would like to help. Please contact our customer service team for assistance."

/-- Model of the `generate_response` node; `none` models returning the
langgraph `END` sentinel for a non-negative comment, which in turn makes the
compiled graph raise `INVALID_GRAPH_NODE_RETURN_VALUE`. A drafter failure
degrades to `fallbackReply`. -/
def generateResponse (drafter : Except String String) (st : CommentState) :
    Option CommentState :=
  let isNegative : Bool :=
    match st.sentiment_result with
    | some r => decide (r.sentiment = "negative")
    | none => false
  if isNegative then
    some { st with
      response_draft := some (match drafter with | .ok d => d | .error _ => fallbackReply) }
  else none

/-- Model of the `human_approval` node: returns `END` when there is no truthy
draft, else resets `human_approved` to `None` (pending). -/
def humanApproval (st : CommentState) : Option CommentState :=
  if truthyStr st.response_draft then some { st with human_approved := none }
  else none

/-- Model of the `finalize_response` node: only a truthy `human_approved`
copies the draft into `final_response`. -/
def finalizeResponse (st : CommentState) : CommentState :=
  match st.human_approved with
  | some true => { st with final_response := st.response_draft }
  | _ => st

/-- One `ainvoke` of the compiled sentiment graph from its entry point:
analyze, then generate, approve and finalize; `none` models the
`INVALID_GRAPH_NODE_RETURN_VALUE` exception raised when a node returns the
`END` string. -/
def runWorkflowGraph (classifier : Except String SentimentDict)
    (drafter : Except String String) (st : CommentState) (now : ℚ) :
    Option CommentState :=
  let st1 := analyzeSentiment classifier st now
  match generateResponse drafter st1 with
  | none => none
  | some st2 =>
      match humanApproval st2 with
      | none => none
      | some st3 => some (finalizeResponse st3)

/-- Result dictionary returned by the module-level `process_comment` and by
`resume_workflow_after_approval` in `workflows/sentiment_workflow.py`. -/
structure WorkflowResult where
  comment_id : String
  sentiment : Option SentimentDict
  response_draft : Option String
  human_approved : Option Bool
  final_response : Option String
  analyzed_at : Option ℚ
deriving DecidableEq

/-- Persisted workflow states, keyed by natural comment id (the pickle files
managed by `WorkflowStateManager`). -/
abbrev StateStore := String → Option CommentState

/-- Initial `CommentState` built at the top of `process_comment`. -/
def mkInitialState (cd : CommentData) (cid : String) : CommentState :=
  { comment_id := cid
    comment_text := cd.body
    subreddit := cd.subreddit
    author := cd.author
    permalink := cd.permalink
    sentiment_result := none
    response_draft := none
    human_approved := none
    final_response := none
    created_at := cd.created_utc
    analyzed_at := none }

/-- Hard-coded result built by `process_comment` when the graph ends early
with `INVALID_GRAPH_NODE_RETURN_VALUE` (non-negative sentiment). -/
def nonNegativeResult (cid : String) (now : ℚ) : WorkflowResult :=
  { comment_id := cid
    sentiment := some
      { sentiment := "non-negative"
        confidence := 0
        explanation := "Comment was determined to be non-negative" }
    response_draft := none
    human_approved := none
    final_response := none
    analyzed_at := some now }

/-- Model of the module-level `process_comment` in
`workflows/sentiment_workflow.py`: runs the compiled graph on the initial
state; on normal completion it saves the INITIAL state for the comment id
whenever approval is pending and the draft is truthy, while on the early-END
exception it returns the hard-coded non-negative result and saves nothing. -/
def processCommentWF (cd : CommentData) (cid : String)
    (classifier : Except String SentimentDict)
    (drafter : Except String String)
    (states : StateStore) (now : ℚ) : WorkflowResult × StateStore :=
  let initialState := mkInitialState cd cid
  match runWorkflowGraph classifier drafter initialState now with
  | some fs =>
      let res : WorkflowResult :=
        { comment_id := fs.comment_id
          sentiment := fs.sentiment_result
          response_draft := fs.response_draft
          human_approved := fs.human_approved
          final_response := fs.final_response
          analyzed_at := fs.analyzed_at }
      let states' :=
        if fs.human_approved = none ∧ truthyStr fs.response_draft then
          fun k => if k = cid then some initialState else states k
        else states
      (res, states')
  | none => (nonNegativeResult cid now, states)

/-- Model of `resume_workflow_after_approval`. The persisted state is loaded
(`None` reported when absent), `human_approved` is set, and the graph is
re-invoked; `invoke` is that external `ainvoke` call. Only when it returns
without raising is the stored state deleted; when it raises, the fallback
result is returned and the state file is left in place. -/
def resumeWorkflowAfterApproval (states : StateStore) (cid : String)
    (approved : Bool) (invoke : CommentState → Except String CommentState)
    (now : ℚ) : Option WorkflowResult × StateStore :=
  match states cid with
  | none => (none, states)
  | some st0 =>
      let st := { st0 with human_approved := some approved }
      match invoke st with
      | .ok fs =>
          let states' : StateStore := fun k => if k = cid then none else states k
          (some
            { comment_id := cid
              sentiment := fs.sentiment_result
              response_draft := fs.response_draft
              human_approved := fs.human_approved
              final_response := fs.final_response
              analyzed_at := fs.analyzed_at }, states')
      | .error _ =>
          (some
            { comment_id := cid
              sentiment := st.sentiment_result
              response_draft := st.response_draft
              human_approved := some approved
              final_response := if approved then st.response_draft else none
              analyzed_at := some now }, states)

/-- Observable outcome of one `RedditMonitor.process_comment` call. -/
structure MonitorOutcome where
  result : WorkflowResult
  db : CommentTable
  states : StateStore
  emailsSent : List String

/-- Model of `RedditMonitor.process_comment` (`monitoring.py`): runs the
workflow, stores the comment with `add_comment` under status
`pending_approval` whatever the sentiment, and sends the alert email only
for a negative sentiment with a truthy draft (marking the email as sent by
the Reddit id on success). -/
def monitorProcessComment (keyTerm email : String) (db : CommentTable)
    (states : StateStore) (cd : CommentData) (cid : String)
    (classifier : Except String SentimentDict)
    (drafter : Except String String) (emailOk : Bool)
    (freshId : String) (now : ℚ) : MonitorOutcome :=
  let p := processCommentWF cd cid classifier drafter states now
  let result := p.1
  let states' := p.2
  match result.sentiment with
  | none => ⟨result, db, states', []⟩
  | some sres =>
      let rd := result.response_draft
      let db' := (addComment db cd keyTerm sres.sentiment sres.confidence rd
        "pending_approval" false none freshId now).2
      if sres.sentiment = "negative" ∧ truthyStr rd then
        if emailOk then
          let db'' := match markEmailSent db' cid email with
            | .ok q => q.1
            | .error _ => db'
          ⟨result, db'', states', [email]⟩
        else ⟨result, db', states', []⟩
      else ⟨result, db', states', []⟩

/-- One item of the scan cycle body in `check_for_new_comments`: the item is
skipped when `comment_exists` reports it, else it is processed through
`RedditMonitor.process_comment`. -/
def ingestComment (keyTerm email : String) (db : CommentTable)
    (states : StateStore) (cd : CommentData) (cid : String)
    (classifier : Except String SentimentDict)
    (drafter : Except String String) (emailOk : Bool)
    (freshId : String) (now : ℚ) : MonitorOutcome :=
  if commentExists db cid then
    ⟨{ comment_id := cid, sentiment := none, response_draft := none,
       human_approved := none, final_response := none, analyzed_at := none },
     db, states, []⟩
  else
    monitorProcessComment keyTerm email db states cd cid classifier drafter
      emailOk freshId now

/-- Model of `RedditMonitor.handle_response_approval`: resumes the workflow,
returns `false` when no state was found, else updates the record through
`update_comment_approval`, catching and logging any database error (the
table is left unchanged when the update raises). -/
def handleResponseApproval (db : CommentTable) (states : StateStore)
    (cid : String) (approved : Bool)
    (invoke : CommentState → Except String CommentState) (now : ℚ) :
    Bool × CommentTable × StateStore :=
  let p := resumeWorkflowAfterApproval states cid approved invoke now
  match p.1 with
  | none => (false, db, p.2)
  | some fs =>
      let fr := fs.final_response
      let db' := match updateCommentApproval db cid approved
          (if approved then fr else none) with
        | .ok q => q.1
        | .error _ => db
      (true, db', p.2)

/-- Final response observed by the caller of the approval-resume path. -/
def approvalFinalResponse (states : StateStore) (cid : String)
    (approved : Bool) (invoke : CommentState → Except String CommentState)
    (now : ℚ) : Option (Option String) :=
  (resumeWorkflowAfterApproval states cid approved invoke now).1.map
    (fun r => r.final_response)

/-- Approval-resume performed after a simulated restart: per the spec, only
the WorkflowState persisted for the pending id survives the restart, so the
resume runs against a store holding exactly that snapshot. -/
def restartedApprovalFinalResponse (persisted : Option CommentState)
    (cid : String) (approved : Bool)
    (invoke : CommentState → Except String CommentState) (now : ℚ) :
    Option (Option String) :=
  approvalFinalResponse (fun k => if k = cid then persisted else none)
    cid approved invoke now

lemma withRetryGo_allFail (e : ℕ → String) (baseDelay backoff : ℚ)
    (isRL : String → Bool) :
    ∀ (remaining attemptIdx : ℕ),
      withRetryGo (α := α) (fun i => .error (e i)) baseDelay backoff isRL
          attemptIdx remaining =
        ⟨.error (e (attemptIdx + remaining)), remaining + 1,
         (List.range remaining).map (fun k => baseDelay * backoff ^ (attemptIdx + k)),
         (List.range remaining).map (fun k => isRL (e (attemptIdx + k)))⟩ := by
  intro remaining
  induction remaining with
  | zero => intro a; simp [withRetryGo]
  | succ n ih =>
      intro a
      rw [withRetryGo]
      simp only [ih (a + 1), List.range_succ_eq_map, List.map_cons, List.map_map]
      simp only [RetryTrace.mk.injEq]
      refine ⟨?_, trivial, ?_, ?_⟩
      · have h1 : a + 1 + n = a + (n + 1) := by omega
        rw [h1]
      · rw [Nat.add_zero]
        congr 1
        refine List.map_congr_left ?_
        intro k _
        simp only [Function.comp_apply]
        have h2 : a + 1 + k = a + Nat.succ k := by omega
        rw [h2]
      · rw [Nat.add_zero]
        congr 1
        refine List.map_congr_left ?_
        intro k _
        simp only [Function.comp_apply]
        have h2 : a + 1 + k = a + Nat.succ k := by omega
        rw [h2]

lemma withRetryGo_isRL_indep (call : ℕ → Except String α)
    (baseDelay backoff : ℚ) (isRL₁ isRL₂ : String → Bool) :
    ∀ (remaining attemptIdx : ℕ),
      (withRetryGo call baseDelay backoff isRL₁ attemptIdx remaining).result =
        (withRetryGo call baseDelay backoff isRL₂ attemptIdx remaining).result ∧
      (withRetryGo call baseDelay backoff isRL₁ attemptIdx remaining).attempts =
        (withRetryGo call baseDelay backoff isRL₂ attemptIdx remaining).attempts ∧
      (withRetryGo call baseDelay backoff isRL₁ attemptIdx remaining).delays =
        (withRetryGo call baseDelay backoff isRL₂ attemptIdx remaining).delays := by
  intro remaining
  induction remaining with
  | zero =>
      intro a
      cases h : call a <;> simp [withRetryGo, h]
  | succ n ih =>
      intro a
      cases h : call a with
      | ok v => simp [withRetryGo, h]
      | error e =>
          have := ih (a + 1)
          simp only [withRetryGo, h]
          exact ⟨this.1, by rw [this.2.1], by rw [this.2.2]⟩

/-- C5: when the wrapped call fails on every invocation, `with_retry` makes
exactly `max_retries + 1` attempts, sleeping
`base_delay * backoff_factor ^ (attempt - 1)` between consecutive attempts,
and re-raises the error of the final attempt; the rate-limit-vs-other
classification influences only the logged flags, never the result, the
attempt count or the delays. -/
theorem C5_retry_bound {α : Type} (e : ℕ → String) (maxRetries : ℕ)
    (baseDelay backoff : ℚ) (isRL : String → Bool) :
    (withRetry (α := α) (fun i => .error (e i)) maxRetries baseDelay backoff
        isRL).attempts = maxRetries + 1 ∧
    (withRetry (α := α) (fun i => .error (e i)) maxRetries baseDelay backoff
        isRL).delays =
      (List.range maxRetries).map (fun k => baseDelay * backoff ^ k) ∧
    (withRetry (α := α) (fun i => .error (e i)) maxRetries baseDelay backoff
        isRL).result = .error (e maxRetries) ∧
    (∀ (call : ℕ → Except String α) (isRL₁ isRL₂ : String → Bool),
      (withRetry call maxRetries baseDelay backoff isRL₁).result =
        (withRetry call maxRetries baseDelay backoff isRL₂).result ∧
      (withRetry call maxRetries baseDelay backoff isRL₁).attempts =
        (withRetry call maxRetries baseDelay backoff isRL₂).attempts ∧
      (withRetry call maxRetries baseDelay backoff isRL₁).delays =
        (withRetry call maxRetries baseDelay backoff isRL₂).delays) := by
  have h := withRetryGo_allFail (α := α) e baseDelay backoff isRL maxRetries 0
  refine ⟨?_, ?_, ?_, ?_⟩
  · rw [withRetry, h]
  · rw [withRetry, h]
    simp
  · rw [withRetry, h]
    simp
  · intro call isRL₁ isRL₂
    exact withRetryGo_isRL_indep call baseDelay backoff isRL₁ isRL₂ maxRetries 0

lemma throttleStart_spacing (reg : ThrottleRegistry) (key : String)
    (minInterval now s : ℚ) (h : reg key = some s) :
    s + minInterval ≤ throttleStart reg key minInterval now := by
  unfold throttleStart
  rw [h]
  simp only [Option.getD_some]
  by_cases hc : now - s < minInterval
  · rw [if_pos hc]; linarith
  · rw [if_neg hc]; linarith

lemma throttleRun_head (key : String) (minInterval : ℚ) (arrivals : List ℚ)
    (reg : ThrottleRegistry) (s : ℚ) (h : reg key = some s) :
    ∀ x ∈ (throttleRun key minInterval reg arrivals).head?,
      s + minInterval ≤ x := by
  cases arrivals with
  | nil => simp [throttleRun]
  | cons now rest =>
      intro x hx
      simp only [throttleRun, List.head?_cons, Option.mem_def,
        Option.some.injEq] at hx
      subst hx
      exact throttleStart_spacing reg key minInterval now s h

lemma throttleRun_chain (key : String) (minInterval : ℚ) :
    ∀ (arrivals : List ℚ) (reg : ThrottleRegistry),
      List.Chain' (fun s t => s + minInterval ≤ t)
        (throttleRun key minInterval reg arrivals) := by
  intro arrivals
  induction arrivals with
  | nil => intro reg; simp [throttleRun]
  | cons now rest ih =>
      intro reg
      rw [throttleRun]
      refine List.chain'_cons'.mpr ⟨?_, ih _⟩
      exact throttleRun_head key minInterval rest _ _ (by simp [throttleCall])

/-- C6: for any sequence of calls through `throttle` under one key, the
start times of consecutive wrapped calls differ by at least `min_interval`;
each call records its start time in the shared per-key registry, never
starts before its arrival, and starts at least `min_interval` after the last
recorded invocation time. -/
theorem C6_throttle_spacing (key : String) (minInterval : ℚ) :
    (∀ (reg : ThrottleRegistry) (arrivals : List ℚ),
       List.Chain' (fun s t => s + minInterval ≤ t)
         (throttleRun key minInterval reg arrivals)) ∧
    (∀ (reg : ThrottleRegistry) (now : ℚ),
       (throttleCall reg key minInterval now).2 key =
         some (throttleCall reg key minInterval now).1) ∧
    (∀ (reg : ThrottleRegistry) (now : ℚ),
       now ≤ throttleStart reg key minInterval now ∧
       (reg key).getD 0 + minInterval ≤ throttleStart reg key minInterval now) := by
  refine ⟨fun reg arrivals => throttleRun_chain key minInterval arrivals reg,
    fun reg now => by simp [throttleCall], fun reg now => ⟨?_, ?_⟩⟩
  · unfold throttleStart
    by_cases hc : now - (reg key).getD 0 < minInterval
    · rw [if_pos hc]; linarith
    · rw [if_neg hc]
  · unfold throttleStart
    by_cases hc : now - (reg key).getD 0 < minInterval
    · rw [if_pos hc]; linarith
    · rw [if_neg hc]; linarith

/-- C7 counterexample: at the concrete failing classifier outcome
`error "boom"`, the degraded result produced by the analyze stage carries
confidence `0.5`, not `0` as the claim states. -/
theorem C7_counterexample :
    ((analyzeSentiment (.error "boom")
        (mkInitialState
          { id := some "abc123", subreddit := "business", author := "alice",
            body := "Your product broke", created_utc := 0,
            permalink := "/r/business/1" } "abc123") 1).sentiment_result).map
      SentimentDict.confidence = some (1 / 2) ∧ (1 / 2 : ℚ) ≠ 0 := by
  exact ⟨rfl, by norm_num⟩

/-- C7 (amended): if the classifier call fails with any exception, the
analyze stage catches it locally and produces the degraded result with
sentiment `neutral`, confidence `0.5` and an explanation embedding the
error text; the stage always returns a state with a sentiment result (it
never propagates an exception). -/
theorem C7_degraded_analysis (e : String) (st : CommentState) (now : ℚ) :
    (∃ r, (analyzeSentiment (.error e) st now).sentiment_result = some r ∧
      r.sentiment = "neutral" ∧ r.confidence = 1 / 2 ∧
      r.explanation =
        "Failed to analyze due to API error: " ++ truncate100 e ++ "...") ∧
    ∀ outcome : Except String SentimentDict,
      ((analyzeSentiment outcome st now).sentiment_result).isSome = true := by
  refine ⟨⟨_, rfl, rfl, rfl, rfl⟩, fun outcome => ?_⟩
  cases outcome <;> rfl

/-- Reading of the spec phrase: a status that reflects that no action is
needed must at least be distinct from `pending_approval`, the status that
marks an item as awaiting operator action. -/
def statusReflectsNoActionNeeded (s : String) : Prop :=
  s ≠ "pending_approval"

/-- Concrete positive item of spec Scenario B. -/
def scenarioBData : CommentData :=
  { id := some "xyz", subreddit := "smallbusiness", author := "bob",
    body := "Great service, very happy", created_utc := 2,
    permalink := "/r/smallbusiness/2" }

/-- C2 counterexample: processing the concrete positive item of Scenario B
writes its CommentRecord with status `pending_approval` — the very status
that marks items awaiting action — so the stored status does not reflect
that no action is needed. -/
theorem C2_counterexample :
    (monitorProcessComment "ABC Consulting" "ops@example.com" [] (fun _ => none)
        scenarioBData "xyz" (.ok ⟨"positive", 9 / 10, "happy customer"⟩)
        (.ok "unused draft") true "uuid-1" 5).db.map CommentRow.status =
      ["pending_approval"] ∧
    ¬ statusReflectsNoActionNeeded "pending_approval" := by
  constructor
  · rfl
  · simp [statusReflectsNoActionNeeded]

/-- Hypothesis under which the `INSERT` branch of `add_comment` succeeds:
the generated primary key is fresh and the natural id is not yet stored. -/
def noInsertConflict (db : CommentTable) (cd : CommentData) (freshId : String) : Prop :=
  (∀ r ∈ db, r.id ≠ freshId) ∧
  (∀ c, cd.id = some c → ∀ r ∈ db, r.comment_id ≠ some c)

lemma addComment_insert (db : CommentTable) (cd : CommentData)
    (key_term sentiment : String) (confidence : ℚ)
    (ai_response : Option String) (status : String)
    (email_sent : Bool) (email_recipient : Option String)
    (freshId : String) (now : ℚ)
    (h : noInsertConflict db cd freshId) :
    addComment db cd key_term sentiment confidence ai_response status
        email_sent email_recipient freshId now =
      (freshId,
       db ++ [insertedRow cd key_term sentiment confidence ai_response status
          email_sent email_recipient freshId now]) := by
  obtain ⟨h1, h2⟩ := h
  rw [addComment]
  have hid : db.any (fun r => r.id = freshId) = false := by
    simp only [List.any_eq_false, decide_eq_true_eq]
    exact h1
  have hcid : (match cd.id with
      | some c => db.any (cidMatch c)
      | none => false) = false := by
    cases hc : cd.id with
    | none => rfl
    | some c =>
        simp only [List.any_eq_false, cidMatch, decide_eq_true_eq]
        exact h2 c hc
  rw [hid, hcid]
  rfl

/-- C2 (amended): for every item whose classified sentiment is not negative,
the workflow terminates immediately without producing a draft, without
persisting any WorkflowState and without sending any email alert, and a
CommentRecord is still written — but its status is the uniform
`pending_approval` (with recorded sentiment `non-negative`), not a status
reflecting that no action is needed. -/
theorem C2_nonnegative_gate (keyTerm email : String) (db : CommentTable)
    (states : StateStore) (cd : CommentData) (cid : String)
    (r : SentimentDict) (drafter : Except String String) (emailOk : Bool)
    (freshId : String) (now : ℚ)
    (hneg : r.sentiment ≠ "negative")
    (hconf : noInsertConflict db cd freshId) :
    (monitorProcessComment keyTerm email db states cd cid (.ok r) drafter
        emailOk freshId now).result.response_draft = none ∧
    (monitorProcessComment keyTerm email db states cd cid (.ok r) drafter
        emailOk freshId now).states = states ∧
    (monitorProcessComment keyTerm email db states cd cid (.ok r) drafter
        emailOk freshId now).emailsSent = [] ∧
    (monitorProcessComment keyTerm email db states cd cid (.ok r) drafter
        emailOk freshId now).db =
      db ++ [insertedRow cd keyTerm "non-negative" 0 none "pending_approval"
        false none freshId now] := by
  have hrun : runWorkflowGraph (.ok r) drafter (mkInitialState cd cid) now = none := by
    rw [runWorkflowGraph]
    simp [analyzeSentiment, generateResponse, hneg]
  have hmon : monitorProcessComment keyTerm email db states cd cid (.ok r)
      drafter emailOk freshId now =
      ⟨nonNegativeResult cid now,
       db ++ [insertedRow cd keyTerm "non-negative" 0 none "pending_approval"
          false none freshId now], states, []⟩ := by
    rw [monitorProcessComment, processCommentWF, hrun]
    simp only [nonNegativeResult]
    rw [addComment_insert db cd keyTerm "non-negative" 0 none
      "pending_approval" false none freshId now hconf]
    simp [truthyStr]
  rw [hmon]
  exact ⟨rfl, rfl, rfl, rfl⟩

/-- C2 (amended) witness at a concrete positive item. -/
theorem C2_nonnegative_gate_witness :
    ("positive" : String) ≠ "negative" ∧
    noInsertConflict [] scenarioBData "uuid-1" ∧
    (monitorProcessComment "ABC Consulting" "ops@example.com" []
        (fun _ => none) scenarioBData "xyz"
        (.ok ⟨"positive", 9 / 10, "happy customer"⟩) (.ok "unused draft")
        true "uuid-1" 5).emailsSent = [] := by
  refine ⟨by decide, ⟨by simp, by simp⟩, ?_⟩
  exact (C2_nonnegative_gate "ABC Consulting" "ops@example.com" []
    (fun _ => none) scenarioBData "xyz" ⟨"positive", 9 / 10, "happy customer"⟩
    (.ok "unused draft") true "uuid-1" 5 (by decide)
    ⟨by simp, by simp⟩).2.2.1

/-- Concrete pending workflow state used in the resume counterexample. -/
def pendingState : CommentState :=
  { mkInitialState
      { id := some "abc123", subreddit := "business", author := "alice",
        body := "Your product broke and support ignored me", created_utc := 0,
        permalink := "/r/business/1" } "abc123" with
    sentiment_result := some ⟨"negative", 9 / 10, "clearly unhappy"⟩,
    response_draft := some "We are sorry to hear this." }

/-- Store holding exactly the pending state for `abc123`. -/
def pendingStore : StateStore :=
  fun k => if k = "abc123" then some pendingState else none

/-- Workflow invocation that raises (as `ainvoke` does on this path when the
re-run graph ends with the early-END error or rejects the `dataflow`
keyword). -/
def raisingInvoke : CommentState → Except String CommentState :=
  fun _ => .error "INVALID_GRAPH_NODE_RETURN_VALUE"

/-- C3 counterexample: at the concrete pending id `abc123`, a resume whose
internal workflow invocation raises still reports success (a non-`None`
result), yet the persisted WorkflowState survives, and a second resume on
the same id again returns a result instead of reporting not found. -/
theorem C3_counterexample :
    (resumeWorkflowAfterApproval pendingStore "abc123" true raisingInvoke
        10).1.isSome = true ∧
    ((resumeWorkflowAfterApproval pendingStore "abc123" true raisingInvoke
        10).2 "abc123").isSome = true ∧
    (resumeWorkflowAfterApproval
        (resumeWorkflowAfterApproval pendingStore "abc123" true raisingInvoke
          10).2 "abc123" true raisingInvoke 11).1.isSome = true := by
  exact ⟨rfl, rfl, rfl⟩

/-- C3 (amended): a successful approval-resume whose internal workflow
invocation completes without raising deletes the persisted WorkflowState for
the id (whatever the decision), so any later resume on that id finds no
state and returns `None`; when the invocation raises, however, the resume
still returns a result while leaving the WorkflowState in place. -/
theorem C3_resume_deletes_state (states : StateStore) (cid : String)
    (st0 fs : CommentState) (approved : Bool)
    (invoke : CommentState → Except String CommentState) (now : ℚ)
    (hload : states cid = some st0)
    (hok : invoke { st0 with human_approved := some approved } = .ok fs) :
    (resumeWorkflowAfterApproval states cid approved invoke now).1.isSome = true ∧
    (resumeWorkflowAfterApproval states cid approved invoke now).2 cid = none ∧
    (∀ (approved2 : Bool) (invoke2 : CommentState → Except String CommentState)
        (now2 : ℚ),
      (resumeWorkflowAfterApproval
        (resumeWorkflowAfterApproval states cid approved invoke now).2 cid
        approved2 invoke2 now2).1 = none) ∧
    (∀ (st1 : CommentState) (e : String),
      states cid = some st1 →
      invoke { st1 with human_approved := some approved } = .error e →
      (resumeWorkflowAfterApproval states cid approved invoke now).2 cid =
        some st1) := by
  have hdel : (resumeWorkflowAfterApproval states cid approved invoke now).2 cid
      = none := by
    rw [resumeWorkflowAfterApproval, hload]
    simp [hok]
  refine ⟨?_, hdel, ?_, ?_⟩
  · rw [resumeWorkflowAfterApproval, hload]
    simp only [hok, Option.isSome_some]
  · intro approved2 invoke2 now2
    rw [resumeWorkflowAfterApproval, hdel]
  · intro st1 e hload1 herr
    rw [hload1] at hload
    cases hload
    rw [herr] at hok
    cases hok

/-- C3 (amended) witness: a concrete resume whose invocation returns the
state unchanged deletes the stored snapshot and makes the second resume
report not found. -/
theorem C3_resume_deletes_state_witness :
    pendingStore "abc123" = some pendingState ∧
    (resumeWorkflowAfterApproval pendingStore "abc123" true (fun st => .ok st)
        10).2 "abc123" = none := by
  refine ⟨rfl, ?_⟩
  exact (C3_resume_deletes_state pendingStore "abc123" pendingState
    { pendingState with human_approved := some true } true (fun st => .ok st)
    10 rfl rfl).2.1

lemma resume_fst_depends_only_on_entry (states₁ states₂ : StateStore)
    (cid : String) (approved : Bool)
    (invoke : CommentState → Except String CommentState) (now : ℚ)
    (h : states₁ cid = states₂ cid) :
    (resumeWorkflowAfterApproval states₁ cid approved invoke now).1 =
      (resumeWorkflowAfterApproval states₂ cid approved invoke now).1 := by
  cases hs : states₂ cid with
  | none => rw [resumeWorkflowAfterApproval, resumeWorkflowAfterApproval, h, hs]
  | some st0 =>
      rw [resumeWorkflowAfterApproval, resumeWorkflowAfterApproval, h, hs]
      cases hi : invoke { st0 with human_approved := some approved } <;>
        simp [hi]

/-- C8: the approval-resume path reads nothing but the persisted
WorkflowState: resuming against the full in-session store and resuming after
a simulated restart — against a store holding only the snapshot persisted
when the draft was produced — yield the same `final_response`, given the
same (deterministic) drafter and workflow invocation. -/
theorem C8_resume_correctness (cd : CommentData) (cid : String)
    (classifier : Except String SentimentDict)
    (drafter : Except String String) (states₀ : StateStore)
    (now now2 : ℚ) (approved : Bool)
    (invoke : CommentState → Except String CommentState) :
    approvalFinalResponse
        (processCommentWF cd cid classifier drafter states₀ now).2 cid
        approved invoke now2 =
      restartedApprovalFinalResponse
        ((processCommentWF cd cid classifier drafter states₀ now).2 cid) cid
        approved invoke now2 := by
  unfold restartedApprovalFinalResponse approvalFinalResponse
  rw [resume_fst_depends_only_on_entry
    (processCommentWF cd cid classifier drafter states₀ now).2
    (fun k => if k = cid then
      (processCommentWF cd cid classifier drafter states₀ now).2 cid else none)
    cid approved invoke now2 (by simp)]

lemma updateCommentApproval_raises (db : CommentTable) (commentId : String)
    (approved : Bool) (final_response : Option String) :
    updateCommentApproval db commentId approved final_response =
      .error "no such column: human_approved" := by
  rw [updateCommentApproval]
  dsimp only
  repeat' split
  all_goals rfl

/-- C4: on a database whose schema is the one created by `_init_db`, a human
decision never lands in the record store: every `update_comment_approval`
call raises `no such column: human_approved` (the SET list names columns the
schema lacks), and `handle_response_approval` catches that error and leaves
the comments table unchanged — no record ever reaches status `approved` or
`rejected` and no `final_response` is stored. -/
theorem C4_approval_update_raises :
    (∀ (db : CommentTable) (commentId : String) (approved : Bool)
        (final_response : Option String),
      updateCommentApproval db commentId approved final_response =
        .error "no such column: human_approved") ∧
    (∀ (db : CommentTable) (states : StateStore) (cid : String)
        (approved : Bool)
        (invoke : CommentState → Except String CommentState) (now : ℚ),
      (handleResponseApproval db states cid approved invoke now).2.1 = db) := by
  refine ⟨updateCommentApproval_raises, ?_⟩
  intro db states cid approved invoke now
  rw [handleResponseApproval]
  cases h : (resumeWorkflowAfterApproval states cid approved invoke now).1 with
  | none => rfl
  | some fs => simp [updateCommentApproval_raises]

/-- C9: of the three targeted mutations, `update_comment_status` and
`mark_email_sent` do return a boolean that is true exactly when a row with
the given internal id exists and was updated, but `update_comment_approval`
never returns: it always raises `no such column: human_approved` because the
schema created by `_init_db` lacks the columns its SET list names. -/
theorem C9_targeted_mutations :
    (∀ (db : CommentTable) (commentId status : String),
      ∃ q, updateCommentStatus db commentId status = .ok q ∧
        (q.2 = true ↔ ∃ r ∈ db, r.id = commentId)) ∧
    (∀ (db : CommentTable) (commentId emailRecipient : String),
      ∃ q, markEmailSent db commentId emailRecipient = .ok q ∧
        (q.2 = true ↔ ∃ r ∈ db, r.id = commentId)) ∧
    (∀ (db : CommentTable) (commentId : String) (approved : Bool)
        (final_response : Option String),
      updateCommentApproval db commentId approved final_response =
        .error "no such column: human_approved") := by
  refine ⟨?_, ?_, updateCommentApproval_raises⟩
  · intro db commentId status
    refine ⟨_, rfl, ?_⟩
    simp [List.any_eq_true]
  · intro db commentId emailRecipient
    refine ⟨_, rfl, ?_⟩
    simp [List.any_eq_true]

/-- The `t1_`-prefixed form of a natural id. -/
def t1 (s : String) : String :=
  ⟨'t' :: '1' :: '_' :: s.data⟩

/-- The accepted format variants of a stored natural id `s`: the exact
string, the `t1_`-prefixed form, and the stripped form when `s` itself
carries the prefix. -/
def idVariant (q s : String) : Prop :=
  q = s ∨ q = t1 s ∨ s = t1 q

/-- Number of rows of the table carrying a given exact natural id. -/
def natCount (db : CommentTable) (s : String) : ℕ :=
  db.countP (fun r => r.comment_id = some s)

lemma t1_ne_self (s : String) : t1 s ≠ s := by
  intro h
  have hlen : ('t' :: '1' :: '_' :: s.data).length = s.data.length :=
    congrArg (fun x : String => x.data.length) h
  simp only [List.length_cons] at hlen
  omega

lemma startsWithT1_t1 (s : String) : startsWithT1 (t1 s) = true := by
  have h3 : "t1_".data = ['t', '1', '_'] := rfl
  rw [startsWithT1, List.isPrefixOf_iff_prefix, h3]
  exact ⟨s.data, rfl⟩

lemma stripT1_t1 (s : String) : stripT1 (t1 s) = s := rfl

lemma startsWithT1_data (q : String) (h : startsWithT1 q = true) :
    q.data = 't' :: '1' :: '_' :: (stripT1 q).data := by
  rw [startsWithT1, List.isPrefixOf_iff_prefix] at h
  obtain ⟨t, ht⟩ := h
  have h3 : "t1_".data = ['t', '1', '_'] := rfl
  rw [h3] at ht
  have hd : (stripT1 q).data = q.data.drop 3 := rfl
  rw [hd, ← ht]
  rfl

lemma any_cidMatch_of_mem {db : CommentTable} {r : CommentRow} {s : String}
    (hr : r ∈ db) (hc : r.comment_id = some s) :
    db.any (cidMatch s) = true := by
  rw [List.any_eq_true]
  exact ⟨r, hr, by simp [cidMatch, hc]⟩

/-- Key dedup lemma: `comment_exists` answers `true` for every nonempty
variant of a natural id already stored in the table. -/
lemma commentExists_variant (db : CommentTable) (r : CommentRow)
    (s q : String) (hr : r ∈ db) (hc : r.comment_id = some s)
    (hq : q ≠ "") (hv : idVariant q s) :
    commentExists db q = true := by
  have hAny : db.any (cidMatch s) = true := any_cidMatch_of_mem hr hc
  rw [commentExists, if_neg hq]
  rcases hv with hv | hv | hv
  · subst hv
    simp [hAny]
  · subst hv
    simp only [startsWithT1_t1, stripT1_t1, if_true]
    have hne : t1 s ≠ s := t1_ne_self s
    simp [hne, hAny]
  · cases hst : startsWithT1 q with
    | false =>
        have hpre : (⟨'t' :: '1' :: '_' :: q.data⟩ : String) = t1 q := rfl
        have hne : q ≠ t1 q := fun h => t1_ne_self q h.symm
        subst hv
        simp [hst, hpre, hne, hAny]
    | true =>
        simp only [hst, if_true, Bool.or_eq_true, List.any_eq_true]
        have hwit : ∃ x ∈ db, (match x.comment_id with
            | some str => if stripT1 q = "" then true
                else strContains str (stripT1 q)
            | none => false) = true := by
          refine ⟨r, hr, ?_⟩
          rw [hc, hv]
          show (if stripT1 q = "" then true else strContains (t1 q) (stripT1 q)) = true
          by_cases hstr : stripT1 q = ""
          · rw [if_pos hstr]
          · rw [if_neg hstr, strContains, decide_eq_true_eq]
            have hqd : q.data = 't' :: '1' :: '_' :: (stripT1 q).data :=
              startsWithT1_data q hst
            refine ⟨['t', '1', '_', 't', '1', '_'], [], ?_⟩
            rw [List.append_nil]
            show ['t', '1', '_', 't', '1', '_'] ++ (stripT1 q).data =
              't' :: '1' :: '_' :: q.data
            rw [hqd]
            rfl
        tauto

/-- Row transformation applied by the `UPDATE` branch of `add_comment`. -/
def updMap (cd : CommentData) (key_term sentiment : String) (confidence : ℚ)
    (ai_response : Option String) (status : String) (email_sent : Bool)
    (email_recipient : Option String) (now : ℚ) (c : String) :
    CommentRow → CommentRow :=
  fun r =>
    if cidMatch c r then
      updatedRow cd key_term sentiment confidence ai_response status
        email_sent email_recipient now r
    else r

lemma updMap_comment_id (cd : CommentData) (key_term sentiment : String)
    (confidence : ℚ) (ai_response : Option String) (status : String)
    (email_sent : Bool) (email_recipient : Option String) (now : ℚ)
    (c : String) (r : CommentRow) :
    (updMap cd key_term sentiment confidence ai_response status email_sent
      email_recipient now c r).comment_id = r.comment_id := by
  rw [updMap]
  split <;> rfl

lemma updMap_id (cd : CommentData) (key_term sentiment : String)
    (confidence : ℚ) (ai_response : Option String) (status : String)
    (email_sent : Bool) (email_recipient : Option String) (now : ℚ)
    (c : String) (r : CommentRow) :
    (updMap cd key_term sentiment confidence ai_response status email_sent
      email_recipient now c r).id = r.id := by
  rw [updMap]
  split <;> rfl

lemma addComment_update (db : CommentTable) (cd : CommentData)
    (key_term sentiment : String) (confidence : ℚ)
    (ai_response : Option String) (status : String) (email_sent : Bool)
    (email_recipient : Option String) (freshId : String) (now : ℚ)
    (c : String) (hc : cd.id = some c)
    (hex : db.any (cidMatch c) = true) :
    addComment db cd key_term sentiment confidence ai_response status
        email_sent email_recipient freshId now =
      (match (db.map (updMap cd key_term sentiment confidence ai_response
          status email_sent email_recipient now c)).find? (cidMatch c) with
       | some r => r.id
       | none => freshId,
       db.map (updMap cd key_term sentiment confidence ai_response status
         email_sent email_recipient now c)) := by
  rw [addComment]
  simp only [hc, hex, Bool.or_true, if_true]
  rfl

lemma natCount_map_preserve (db : CommentTable) (g : CommentRow → CommentRow)
    (h : ∀ r, (g r).comment_id = r.comment_id) (s : String) :
    natCount (db.map g) s = natCount db s := by
  rw [natCount, natCount, List.countP_map]
  refine List.countP_congr ?_
  intro r _
  simp [Function.comp, h r]

lemma analyzeSentiment_isSome (cl : Except String SentimentDict)
    (st : CommentState) (now : ℚ) :
    ((analyzeSentiment cl st now).sentiment_result).isSome = true := by
  cases cl <;> rfl

lemma generateResponse_sentiment (dr : Except String String)
    (st st2 : CommentState) (h : generateResponse dr st = some st2) :
    st2.sentiment_result = st.sentiment_result := by
  unfold generateResponse at h
  dsimp only at h
  split at h
  · cases h
    rfl
  · cases h

lemma humanApproval_sentiment (st st2 : CommentState)
    (h : humanApproval st = some st2) :
    st2.sentiment_result = st.sentiment_result := by
  rw [humanApproval] at h
  split at h
  · cases h
    rfl
  · cases h

lemma finalizeResponse_sentiment (st : CommentState) :
    (finalizeResponse st).sentiment_result = st.sentiment_result := by
  rw [finalizeResponse]
  split <;> rfl

lemma runWorkflowGraph_sentiment (cl : Except String SentimentDict)
    (dr : Except String String) (st : CommentState) (now : ℚ)
    (fs : CommentState) (h : runWorkflowGraph cl dr st now = some fs) :
    (fs.sentiment_result).isSome = true := by
  rw [runWorkflowGraph] at h
  cases hg : generateResponse dr (analyzeSentiment cl st now) with
  | none => rw [hg] at h; cases h
  | some st2 =>
      rw [hg] at h
      dsimp only at h
      cases ha : humanApproval st2 with
      | none => rw [ha] at h; cases h
      | some st3 =>
          rw [ha] at h
          dsimp only at h
          cases h
          rw [finalizeResponse_sentiment, humanApproval_sentiment st2 st3 ha,
            generateResponse_sentiment dr (analyzeSentiment cl st now) st2 hg]
          exact analyzeSentiment_isSome cl st now

lemma processCommentWF_sentiment (cd : CommentData) (cid : String)
    (cl : Except String SentimentDict) (dr : Except String String)
    (states : StateStore) (now : ℚ) :
    ((processCommentWF cd cid cl dr states now).1.sentiment).isSome = true := by
  rw [processCommentWF]
  cases hg : runWorkflowGraph cl dr (mkInitialState cd cid) now with
  | none => rfl
  | some fs => exact runWorkflowGraph_sentiment cl dr (mkInitialState cd cid) now fs hg

lemma markEmailSent_shape (db2 : CommentTable) (cid email : String) :
    ∃ g : CommentRow → CommentRow,
      (∀ r, (g r).comment_id = r.comment_id) ∧ (∀ r, (g r).id = r.id) ∧
      (match markEmailSent db2 cid email with
       | .ok q => q.1
       | .error _ => db2) = db2.map g := by
  refine ⟨fun r => if decide (r.id = cid) = true then
    { r with email_sent := 1, email_recipient := some email } else r,
    ?_, ?_, ?_⟩
  · intro r
    dsimp only
    split <;> rfl
  · intro r
    dsimp only
    split <;> rfl
  · rfl

lemma monitorProcessComment_db_shape (keyTerm email : String)
    (db : CommentTable) (states : StateStore) (cd : CommentData)
    (cid : String) (cl : Except String SentimentDict)
    (dr : Except String String) (emailOk : Bool) (freshId : String)
    (now : ℚ) :
    ∃ (sn : String) (cf : ℚ) (rd : Option String)
      (g : CommentRow → CommentRow),
      (∀ r, (g r).comment_id = r.comment_id) ∧ (∀ r, (g r).id = r.id) ∧
      (monitorProcessComment keyTerm email db states cd cid cl dr emailOk
          freshId now).db =
        ((addComment db cd keyTerm sn cf rd "pending_approval" false none
            freshId now).2).map g := by
  rw [monitorProcessComment]
  cases hs : (processCommentWF cd cid cl dr states now).1.sentiment with
  | none =>
      have := processCommentWF_sentiment cd cid cl dr states now
      rw [hs] at this
      cases this
  | some sres =>
      dsimp only
      split
      · split
        · obtain ⟨g, hg1, hg2, hg3⟩ := markEmailSent_shape
            (addComment db cd keyTerm sres.sentiment sres.confidence
              (processCommentWF cd cid cl dr states now).1.response_draft
              "pending_approval" false none freshId now).2 cid email
          exact ⟨sres.sentiment, sres.confidence,
            (processCommentWF cd cid cl dr states now).1.response_draft,
            g, hg1, hg2, hg3⟩
        · exact ⟨sres.sentiment, sres.confidence,
            (processCommentWF cd cid cl dr states now).1.response_draft,
            id, fun r => rfl, fun r => rfl, by rw [List.map_id]⟩
      · exact ⟨sres.sentiment, sres.confidence,
          (processCommentWF cd cid cl dr states now).1.response_draft,
          id, fun r => rfl, fun r => rfl, by rw [List.map_id]⟩

/-- C1: ingestion is idempotent per natural id across accepted id-format
variants: (1) an item whose id the dedup check already reports is skipped
outright — the table, the state store and the outbox are untouched; (2)
`comment_exists` answers true for every nonempty variant (exact,
`t1_`-prefixed, or stripped) of an id already stored; (3) `add_comment` on
an already-present natural id updates the existing row in place — the table
keeps its length and its per-id row counts; (4) a fresh item is inserted as
exactly one new CommentRecord for its natural id. -/
theorem C1_idempotent_ingestion :
    (∀ (keyTerm email : String) (db : CommentTable) (states : StateStore)
        (cd : CommentData) (cid : String) (cl : Except String SentimentDict)
        (dr : Except String String) (emailOk : Bool) (freshId : String)
        (now : ℚ),
      commentExists db cid = true →
      (ingestComment keyTerm email db states cd cid cl dr emailOk freshId
          now).db = db ∧
      (ingestComment keyTerm email db states cd cid cl dr emailOk freshId
          now).states = states ∧
      (ingestComment keyTerm email db states cd cid cl dr emailOk freshId
          now).emailsSent = []) ∧
    (∀ (db : CommentTable) (r : CommentRow) (s q : String),
      r ∈ db → r.comment_id = some s → q ≠ "" → idVariant q s →
      commentExists db q = true) ∧
    (∀ (db : CommentTable) (cd : CommentData) (c key_term sentiment : String)
        (confidence : ℚ) (ai : Option String) (status : String) (es : Bool)
        (er : Option String) (freshId : String) (now : ℚ),
      cd.id = some c → db.any (cidMatch c) = true →
      (addComment db cd key_term sentiment confidence ai status es er freshId
          now).2.length = db.length ∧
      ∀ s, natCount (addComment db cd key_term sentiment confidence ai status
        es er freshId now).2 s = natCount db s) ∧
    (∀ (keyTerm email : String) (db : CommentTable) (states : StateStore)
        (cd : CommentData) (cid : String) (cl : Except String SentimentDict)
        (dr : Except String String) (emailOk : Bool) (freshId : String)
        (now : ℚ),
      commentExists db cid = false → cd.id = some cid →
      noInsertConflict db cd freshId →
      (ingestComment keyTerm email db states cd cid cl dr emailOk freshId
          now).db.length = db.length + 1 ∧
      natCount (ingestComment keyTerm email db states cd cid cl dr emailOk
        freshId now).db cid = 1) := by
  refine ⟨?_, ?_, ?_, ?_⟩
  · intro keyTerm email db states cd cid cl dr emailOk freshId now h
    rw [ingestComment, if_pos h]
    exact ⟨rfl, rfl, rfl⟩
  · intro db r s q hr hc hq hv
    exact commentExists_variant db r s q hr hc hq hv
  · intro db cd c key_term sentiment confidence ai status es er freshId now
      hc hex
    rw [addComment_update db cd key_term sentiment confidence ai status es er
      freshId now c hc hex]
    refine ⟨by simp, fun s => ?_⟩
    exact natCount_map_preserve db _
      (updMap_comment_id cd key_term sentiment confidence ai status es er now c) s
  · intro keyTerm email db states cd cid cl dr emailOk freshId now hex hc hconf
    obtain ⟨sn, cf, rd, g, hg1, hg2, hdb⟩ := monitorProcessComment_db_shape
      keyTerm email db states cd cid cl dr emailOk freshId now
    have hingest : ingestComment keyTerm email db states cd cid cl dr emailOk
        freshId now =
        monitorProcessComment keyTerm email db states cd cid cl dr emailOk
          freshId now := by
      rw [ingestComment, if_neg]
      simp [hex]
    rw [hingest, hdb, addComment_insert db cd keyTerm sn cf rd
      "pending_approval" false none freshId now hconf]
    have h0 : natCount db cid = 0 := by
      rw [natCount, List.countP_eq_zero]
      intro r hr
      simp only [decide_eq_true_eq]
      exact hconf.2 cid hc r hr
    constructor
    · simp
    · rw [natCount_map_preserve _ g hg1]
      have happ : natCount (db ++ [insertedRow cd keyTerm sn cf rd
          "pending_approval" false none freshId now]) cid =
          natCount db cid + 1 := by
        rw [natCount, natCount, List.countP_append]
        have hone : List.countP (fun r => decide (r.comment_id = some cid))
            [insertedRow cd keyTerm sn cf rd "pending_approval" false none
              freshId now] = 1 := by
          simp [List.countP_cons, insertedRow, hc]
        rw [hone]
      rw [happ, h0]

/-- Concrete stored record used as witness data for dedup claims. -/
def wrow : CommentRow :=
  insertedRow
    { id := some "abc123", subreddit := "business", author := "alice",
      body := "Your product broke and support ignored me", created_utc := 0,
      permalink := "/r/business/1" }
    "ABC Consulting" "negative" 1 (some "We are sorry.") "pending_approval"
    false none "uuid-1" 1

/-- Second arrival of the same item, under the `t1_`-prefixed id variant. -/
def wcd2 : CommentData :=
  { id := some "t1_abc123", subreddit := "business", author := "alice",
    body := "Your product broke and support ignored me", created_utc := 0,
    permalink := "/r/business/1" }

/-- Re-arrival of item `abc123` under its exact id, with changed fields. -/
def wcd3 : CommentData :=
  { id := some "abc123", subreddit := "business", author := "alice",
    body := "updated body", created_utc := 0, permalink := "/r/business/1" }

/-- C1 witness: with `abc123` stored, the prefixed variant `t1_abc123` is
reported as existing and its re-ingestion leaves the table unchanged; a
direct `add_comment` on the stored id keeps one row, and ingesting the item
into an empty table creates exactly one row. -/
theorem C1_idempotent_ingestion_witness :
    commentExists [wrow] "t1_abc123" = true ∧
    (ingestComment "ABC Consulting" "ops@example.com" [wrow] (fun _ => none)
        wcd2 "t1_abc123" (.ok ⟨"negative", 1, "bad"⟩) (.ok "draft") true
        "uuid-2" 2).db = [wrow] ∧
    (addComment [wrow] wcd3 "ABC Consulting" "neutral" 0 none "new" false
        none "uuid-9" 3).2.length = 1 ∧
    (ingestComment "ABC Consulting" "ops@example.com" [] (fun _ => none)
        wcd3 "abc123" (.ok ⟨"negative", 1, "bad"⟩) (.ok "draft") true
        "uuid-1" 1).db.length = 1 := by
  have hvar : commentExists [wrow] "t1_abc123" = true :=
    C1_idempotent_ingestion.2.1 [wrow] wrow "abc123" "t1_abc123"
      (by simp) rfl (by decide) (Or.inr (Or.inl (by decide)))
  refine ⟨hvar,
    (C1_idempotent_ingestion.1 "ABC Consulting" "ops@example.com" [wrow]
      (fun _ => none) wcd2 "t1_abc123" (.ok ⟨"negative", 1, "bad"⟩)
      (.ok "draft") true "uuid-2" 2 hvar).1, ?_, ?_⟩
  · exact (C1_idempotent_ingestion.2.2.1 [wrow] wcd3 "abc123"
      "ABC Consulting" "neutral" 0 none "new" false none "uuid-9" 3 rfl
      (by decide)).1.trans rfl
  · exact (C1_idempotent_ingestion.2.2.2 "ABC Consulting" "ops@example.com"
      [] (fun _ => none) wcd3 "abc123" (.ok ⟨"negative", 1, "bad"⟩)
      (.ok "draft") true "uuid-1" 1 (by decide) rfl
      ⟨by simp, by simp⟩).1.trans rfl

/-- C10: when the natural id is already present, `add_comment` takes the
update branch and returns the existing internal id rather than the freshly
generated one, and the internal ids of all rows are unchanged — a record
never changes internal id across repeated ingestion of its natural id. -/
theorem C10_internal_id_stable (db : CommentTable) (cd : CommentData)
    (c key_term sentiment : String) (confidence : ℚ) (ai : Option String)
    (status : String) (es : Bool) (er : Option String) (freshId : String)
    (now : ℚ) (r₀ : CommentRow)
    (hc : cd.id = some c)
    (hfind : db.find? (cidMatch c) = some r₀)
    (hfresh : ∀ r ∈ db, r.id ≠ freshId) :
    (addComment db cd key_term sentiment confidence ai status es er freshId
        now).1 = r₀.id ∧
    r₀.id ≠ freshId ∧
    ((addComment db cd key_term sentiment confidence ai status es er freshId
        now).2).map (fun r => r.id) = db.map (fun r => r.id) := by
  have hex : db.any (cidMatch c) = true :=
    List.any_eq_true.mpr ⟨r₀, List.mem_of_find?_eq_some hfind,
      List.find?_some hfind⟩
  rw [addComment_update db cd key_term sentiment confidence ai status es er
    freshId now c hc hex]
  have hpred : ∀ r : CommentRow, cidMatch c
      (updMap cd key_term sentiment confidence ai status es er now c r) =
      cidMatch c r := by
    intro r
    simp [cidMatch, updMap_comment_id]
  have hfmap : ((db.map (updMap cd key_term sentiment confidence ai status es
      er now c)).find? (cidMatch c)) =
      some (updMap cd key_term sentiment confidence ai status es er now c r₀) := by
    rw [List.find?_map]
    have hcomp : (cidMatch c ∘ updMap cd key_term sentiment confidence ai
        status es er now c) = cidMatch c := funext hpred
    rw [hcomp, hfind]
    rfl
  refine ⟨?_, hfresh r₀ (List.mem_of_find?_eq_some hfind), ?_⟩
  · show (match (db.map (updMap cd key_term sentiment confidence ai status es
        er now c)).find? (cidMatch c) with
      | some r => r.id
      | none => freshId) = r₀.id
    rw [hfmap]
    exact updMap_id cd key_term sentiment confidence ai status es er now c r₀
  · show ((db.map (updMap cd key_term sentiment confidence ai status es er
        now c)).map (fun r => r.id)) = db.map (fun r => r.id)
    rw [List.map_map]
    refine List.map_congr_left ?_
    intro r _
    simp [Function.comp, updMap_id]

/-- C10 witness: re-adding `abc123` with a fresh UUID `uuid-9` returns the
original internal id `uuid-1`, not the fresh one. -/
theorem C10_internal_id_stable_witness :
    [wrow].find? (cidMatch "abc123") = some wrow ∧
    (addComment [wrow] wcd3 "ABC Consulting" "neutral" 0 none "new" false
      none "uuid-9" 3).1 = "uuid-1" := by
  have hfind : [wrow].find? (cidMatch "abc123") = some wrow := by decide
  have h := C10_internal_id_stable [wrow] wcd3 "abc123" "ABC Consulting"
    "neutral" 0 none "new" false none "uuid-9" 3 wrow rfl hfind (by decide)
  exact ⟨hfind, h.1.trans rfl⟩

end RSA
